import Mathlib

/-!
Shallow embedding of the Order Management & Routing Engine
(src/backend/src/order/mod.rs and src/backend/src/order/router.rs).

Modelling conventions:
- `Uuid` is modelled as `Nat`, with `0` standing for `Uuid::nil()`.
- `f64` quantities and prices are modelled as `ℚ` (only comparisons and
  plain assignments occur in the embedded code).
- `DateTime<Utc>` timestamps are modelled as `Nat`; each operation that
  stamps `Utc::now()` takes the current time as an explicit argument.
- Rust `HashMap`s are modelled as association lists; `insert` overwrites
  the entry for an existing key, `remove` deletes every entry for the key.
- Asynchronous effects are made explicit: the outcome of a router/venue
  call is passed in as an argument, and each operation returns the events
  it emits on the internal channel, for the pipeline worker to consume.
-/

namespace VibeTrading

inductive OrderStatus where
  | Created
  | PendingSubmission
  | Submitted
  | PartiallyFilled
  | Filled
  | Cancelled
  | Rejected
  | Failed
deriving DecidableEq, Fintype

/-- Check if the current state can transition to the given state
(`OrderStatus::can_transition_to` in src/backend/src/order/mod.rs). -/
def OrderStatus.can_transition_to (self next : OrderStatus) : Bool :=
  match self, next with
  | .Created, .PendingSubmission => true
  | .PendingSubmission, .Submitted => true
  | .PendingSubmission, .Rejected => true
  | .PendingSubmission, .Failed => true
  | .Submitted, .PartiallyFilled => true
  | .Submitted, .Filled => true
  | .Submitted, .Cancelled => true
  | .Submitted, .Rejected => true
  | .Submitted, .Failed => true
  | .PartiallyFilled, .Filled => true
  | .PartiallyFilled, .Cancelled => true
  | .PartiallyFilled, .Failed => true
  | s1, s2 => s1 == s2

inductive OrderType where
  | Market
  | Limit
  | StopLoss
  | StopLimit
  | TrailingStop
deriving DecidableEq

inductive TradeDirection where
  | Buy
  | Sell
deriving DecidableEq

inductive TimeInForce where
  | GoodTilCanceled
  | ImmediateOrCancel
  | FillOrKill
  | DayOnly
deriving DecidableEq

structure Order where
  id : Nat
  client_order_id : String
  symbol : String
  direction : TradeDirection
  order_type : OrderType
  quantity : ℚ
  filled_quantity : ℚ
  price : Option ℚ
  stop_price : Option ℚ
  time_in_force : TimeInForce
  status : OrderStatus
  exchange : String
  created_at : Nat
  updated_at : Nat
  filled_at : Option Nat
  average_fill_price : Option ℚ
  strategy_id : Option String
  notes : Option String
deriving DecidableEq

inductive OrderEvent where
  | New (order : Order)
  | Update (order_id : Nat) (status : Option OrderStatus)
      (filled_qty : Option ℚ) (avg_fill_price : Option ℚ)
  | Cancel (order_id : Nat) (reason : String)
  | Reject (order_id : Nat) (reason : String)
  | Error (order_id : Option Nat) (message : String)
deriving DecidableEq

section Maps

variable {α β : Type} [DecidableEq α]

/-- `HashMap::get`: the value for a key, if present. -/
def lookupMap : List (α × β) → α → Option β
  | [], _ => none
  | (k2, v) :: rest, k => if k2 = k then some v else lookupMap rest k

/-- `HashMap::insert`: overwrite the entry for the key, or append it. -/
def insertMap : List (α × β) → α → β → List (α × β)
  | [], k, v => [(k, v)]
  | (k2, v2) :: rest, k, v =>
      if k2 = k then (k, v) :: rest else (k2, v2) :: insertMap rest k v

/-- `HashMap::remove`: delete every entry for the key. -/
def removeMap : List (α × β) → α → List (α × β)
  | [], _ => []
  | (k2, v2) :: rest, k =>
      if k2 = k then removeMap rest k else (k2, v2) :: removeMap rest k

theorem lookupMap_insertMap_self (m : List (α × β)) (k : α) (v : β) :
    lookupMap (insertMap m k v) k = some v := by
  induction m with
  | nil => simp [insertMap, lookupMap]
  | cons p rest ih =>
      obtain ⟨k2, v2⟩ := p
      by_cases h : k2 = k <;> simp [insertMap, lookupMap, h, ih]

theorem lookupMap_removeMap_self (m : List (α × β)) (k : α) :
    lookupMap (removeMap m k) k = none := by
  induction m with
  | nil => simp [removeMap, lookupMap]
  | cons p rest ih =>
      obtain ⟨k2, v2⟩ := p
      by_cases h : k2 = k <;> simp [removeMap, lookupMap, h, ih]

end Maps

/-- The order-manager state: the authoritative order store and the
active-order subset (`OrderManager.orders` / `OrderManager.active_orders`). -/
structure ManagerState where
  orders : List (Nat × Order)
  active_orders : List (Nat × Order)
deriving DecidableEq

/-- `OrderManager::update_order_status_internal`: set the stored order's
status and update timestamp; a no-op for an unknown id. Touches the order
store only, never the active set. -/
def update_order_status_internal (st : ManagerState) (order_id : Nat)
    (status : OrderStatus) (now : Nat) : ManagerState :=
  match lookupMap st.orders order_id with
  | some order =>
      { st with orders :=
          insertMap st.orders order_id ({ order with status := status, updated_at := now }) }
  | none => st

/-- `OrderManager::validate_order`. -/
def validate_order (order : Order) : Except String Unit :=
  if order.symbol = "" then
    .error "Order symbol cannot be empty"
  else if order.quantity ≤ 0 then
    .error "Order quantity must be positive"
  else if order.order_type = OrderType.Limit ∧ order.price = none then
    .error "Limit orders must specify a price"
  else if order.order_type = OrderType.Market ∧ order.price ≠ none then
    .error "Market orders should not specify a price"
  else if (order.order_type = OrderType.StopLoss ∨ order.order_type = OrderType.StopLimit)
      ∧ order.stop_price = none then
    .error "Stop orders must specify a stop price"
  else
    .ok ()

structure PlaceResult where
  result : Except String Nat
  state : ManagerState
  events : List OrderEvent

/-- Synchronous part of `OrderManager::place_order`: assign a fresh id when
the supplied id is nil, stamp timestamps, force status to Created, validate,
and on success insert into both maps and emit a New event. `fresh_id` stands
for the `Uuid::new_v4()` draw, `now` for `Utc::now()`. The spawned
submission task is modelled separately by `submission_task`. -/
def place_order (st : ManagerState) (order : Order) (fresh_id : Nat) (now : Nat) :
    PlaceResult :=
  let order := if order.id = 0 then { order with id := fresh_id } else order
  let order := { order with created_at := now, updated_at := now,
                            status := OrderStatus.Created }
  match validate_order order with
  | .error e => ⟨.error e, st, []⟩
  | .ok _ =>
      ⟨.ok order.id,
       { orders := insertMap st.orders order.id order,
         active_orders := insertMap st.active_orders order.id order },
       [.New order]⟩

/-- The background task spawned by `place_order`: move the order to
PendingSubmission, submit through the router, then either mark it Submitted
and emit an Update event, or mark it Failed, drop it from the active set and
emit an Error event. `router_result` is the outcome of
`OrderRouter::submit_order`. -/
def submission_task (st : ManagerState) (order_id : Nat)
    (router_result : Except String Unit) (now : Nat) :
    ManagerState × List OrderEvent :=
  let st1 := update_order_status_internal st order_id OrderStatus.PendingSubmission now
  match router_result with
  | .ok _ =>
      let st2 := update_order_status_internal st1 order_id OrderStatus.Submitted now
      (st2, [.Update order_id (some OrderStatus.Submitted) none none])
  | .error e =>
      let st2 := update_order_status_internal st1 order_id OrderStatus.Failed now
      let st3 := { st2 with active_orders := removeMap st2.active_orders order_id }
      (st3, [.Error (some order_id) e])

structure CancelResult where
  result : Except String Unit
  state : ManagerState
  events : List OrderEvent
  venue_called : Bool

/-- `OrderManager::cancel_order`: only an active order in status Created,
Submitted or PartiallyFilled can be cancelled. A Created order is cancelled
locally without a venue call; otherwise the router is asked to cancel and on
router failure the cancellation is still applied locally. On success the
order leaves the active set and a Cancel event is emitted. `router_cancel`
is the outcome the router would return, `venue_called` records whether the
router was invoked at all. -/
def cancel_order (st : ManagerState) (order_id : Nat) (reason : String)
    (router_cancel : Except String Unit) (now : Nat) : CancelResult :=
  match lookupMap st.active_orders order_id with
  | some order =>
      if order.status = OrderStatus.Created ∨ order.status = OrderStatus.Submitted
          ∨ order.status = OrderStatus.PartiallyFilled then
        let step : ManagerState × Bool :=
          if order.status = OrderStatus.Created then
            (update_order_status_internal st order_id OrderStatus.Cancelled now, false)
          else
            match router_cancel with
            | .ok _ => (st, true)
            | .error _ =>
                (update_order_status_internal st order_id OrderStatus.Cancelled now, true)
        let st2 := { step.1 with active_orders := removeMap step.1.active_orders order_id }
        ⟨.ok (), st2, [.Cancel order_id reason], step.2⟩
      else
        ⟨.error ("Order " ++ toString order_id ++ " cannot be cancelled in its current status"),
         st, [], false⟩
  | none =>
      ⟨.error ("Order " ++ toString order_id ++ " not found or not active"), st, [], false⟩

/-- `OrderManager::get_order`. -/
def get_order (st : ManagerState) (order_id : Nat) : Option Order :=
  lookupMap st.orders order_id

/-- `OrderManager::get_active_orders`. -/
def get_active_orders (st : ManagerState) : List Order :=
  st.active_orders.map Prod.snd

/-- `OrderManager::process_order_event`, the pipeline worker's single-event
step: Update overwrites the fields present in the event and removes the
order from the active set when the resulting status is Filled, Cancelled or
Rejected; Cancel/Reject force the corresponding status, record the reason
and remove from the active set; Error (with an id) forces Failed, records
the message and removes from the active set; New is informational; events
for unknown ids are dropped. -/
def process_order_event (event : OrderEvent) (st : ManagerState) (now : Nat) :
    ManagerState :=
  match event with
  | .Update order_id status filled_qty avg_fill_price =>
      match lookupMap st.orders order_id with
      | some order =>
          let order := match status with
            | some new_status => { order with status := new_status }
            | none => order
          let order := match filled_qty with
            | some qty => { order with filled_quantity := qty }
            | none => order
          let order := match avg_fill_price with
            | some price => { order with average_fill_price := some price }
            | none => order
          let order := { order with updated_at := now }
          let active2 :=
            if order.status = OrderStatus.Filled ∨ order.status = OrderStatus.Cancelled
                ∨ order.status = OrderStatus.Rejected then
              removeMap st.active_orders order_id
            else
              st.active_orders
          { orders := insertMap st.orders order_id order, active_orders := active2 }
      | none => st
  | .New _ => st
  | .Cancel order_id reason =>
      match lookupMap st.orders order_id with
      | some order =>
          let order := { order with status := OrderStatus.Cancelled,
                                    notes := some reason, updated_at := now }
          { orders := insertMap st.orders order_id order,
            active_orders := removeMap st.active_orders order_id }
      | none => st
  | .Reject order_id reason =>
      match lookupMap st.orders order_id with
      | some order =>
          let order := { order with status := OrderStatus.Rejected,
                                    notes := some reason, updated_at := now }
          { orders := insertMap st.orders order_id order,
            active_orders := removeMap st.active_orders order_id }
      | none => st
  | .Error order_id message =>
      match order_id with
      | some id =>
          match lookupMap st.orders id with
          | some order =>
              let order := { order with status := OrderStatus.Failed,
                                        notes := some message, updated_at := now }
              { orders := insertMap st.orders id order,
                active_orders := removeMap st.active_orders id }
          | none => st
      | none => st

/-- A venue adapter (`CryptoExchange` behind the `Exchange` capability):
its name and the outcomes of its submit/cancel calls, kept abstract. -/
structure CryptoExchange where
  name : String
  submit : Order → Except String Unit
  cancel : Nat → Except String Unit

/-- `OrderRouter` state: the venue registry and the symbol → primary-venue
map. Both are Rust `HashMap`s; the lists here represent their contents
(unique keys) and carry no iteration-order guarantee — a `HashMap`'s
iteration order is arbitrary, so wherever the source iterates the registry
the iteration sequence is passed in explicitly as an arbitrary permutation
of these entries. -/
structure OrderRouter where
  exchanges : List (String × CryptoExchange)
  primary_exchange_map : List (String × String)

/-- `OrderRouter::register_exchange`: fails when the name is taken,
otherwise appends the adapter to the registry. -/
def OrderRouter.register_exchange (r : OrderRouter) (ex : CryptoExchange) :
    Except String Unit × OrderRouter :=
  match lookupMap r.exchanges ex.name with
  | some _ => (.error ("Exchange " ++ ex.name ++ " already registered"), r)
  | none => (.ok (), { r with exchanges := r.exchanges ++ [(ex.name, ex)] })

/-- `OrderRouter::set_primary_exchange`: upsert the routing entry. -/
def OrderRouter.set_primary_exchange (r : OrderRouter) (asset exchange : String) :
    OrderRouter :=
  { r with primary_exchange_map := insertMap r.primary_exchange_map asset exchange }

/-- `OrderRouter::submit_order`: resolve the venue as `order.exchange` when
non-empty, else via the primary-venue map; error when neither resolves or
the venue is unregistered; otherwise delegate to the adapter. The second
component records which adapter, if any, was invoked. -/
def OrderRouter.submit_order (r : OrderRouter) (order : Order) :
    Except String Unit × Option String :=
  let exchange_name : Except String String :=
    if ¬ order.exchange = "" then
      .ok order.exchange
    else
      match lookupMap r.primary_exchange_map order.symbol with
      | some name => .ok name
      | none => .error ("No primary exchange defined for " ++ order.symbol)
  match exchange_name with
  | .error e => (.error e, none)
  | .ok name =>
      match lookupMap r.exchanges name with
      | none => (.error ("Exchange " ++ name ++ " not found"), none)
      | some ex => (ex.submit order, some name)

/-- The probing loop inside `OrderRouter::cancel_order`: try each adapter of
the given iteration sequence in turn, succeed on the first accepting one.
The second component records the names probed, in order. -/
def cancel_probe (order_id : Nat) :
    List (String × CryptoExchange) → Except String Unit × List String
  | [] => (.error ("Order " ++ toString order_id ++ " not found on any exchange"), [])
  | (name, ex) :: rest =>
      match ex.cancel order_id with
      | .ok _ => (.ok (), [name])
      | .error _ =>
          let r := cancel_probe order_id rest
          (r.1, name :: r.2)

/-- `OrderRouter::cancel_order`: error when no adapter is registered,
otherwise iterate the registry `HashMap` and return success on the first
adapter that accepts. `iter` is the `HashMap` iteration sequence for this
call — the source's `exchanges.iter()` visits the entries in an arbitrary,
unspecified order, so `iter` ranges over the permutations of
`r.exchanges`. -/
def OrderRouter.cancel_order (_r : OrderRouter) (order_id : Nat)
    (iter : List (String × CryptoExchange)) :
    Except String Unit × List String :=
  if iter.isEmpty then
    (.error "No exchanges registered", [])
  else
    cancel_probe order_id iter

/-- True exactly on an `error` outcome. -/
def isErr {ε α : Type} : Except ε α → Bool
  | .error _ => true
  | .ok _ => false

/-! ### Concrete sample data for evaluating the definitions -/

/-- A representative limit order, already submitted. -/
def baseOrder : Order :=
  { id := 1
    client_order_id := "client-1"
    symbol := "BTC/USD"
    direction := TradeDirection.Buy
    order_type := OrderType.Limit
    quantity := 1
    filled_quantity := 0
    price := some 35000
    stop_price := none
    time_in_force := TimeInForce.GoodTilCanceled
    status := OrderStatus.Submitted
    exchange := ""
    created_at := 0
    updated_at := 0
    filled_at := none
    average_fill_price := none
    strategy_id := none
    notes := none }

/-- A manager state holding `baseOrder` in both the store and the active set. -/
def baseState : ManagerState :=
  { orders := [(1, baseOrder)], active_orders := [(1, baseOrder)] }

/-- A state whose only order is already Filled (and hence not active). -/
def filledState : ManagerState :=
  { orders := [(1, { baseOrder with status := OrderStatus.Filled })], active_orders := [] }

/-! ### Helper lemmas about the state operations -/

theorem lookup_update_status (st : ManagerState) (oid : Nat) (s : OrderStatus) (now : Nat) :
    lookupMap (update_order_status_internal st oid s now).orders oid
      = (lookupMap st.orders oid).map (fun o => { o with status := s, updated_at := now }) := by
  unfold update_order_status_internal
  cases h : lookupMap st.orders oid with
  | none => simp [h]
  | some o => simp [h, lookupMap_insertMap_self]

theorem update_status_active (st : ManagerState) (oid : Nat) (s : OrderStatus) (now : Nat) :
    (update_order_status_internal st oid s now).active_orders = st.active_orders := by
  unfold update_order_status_internal
  cases h : lookupMap st.orders oid <;> simp [h]

/-- The §4.1 transition table, written out as a relation. -/
def transition_allowed (a b : OrderStatus) : Prop :=
  (a = OrderStatus.Created ∧ b = OrderStatus.PendingSubmission) ∨
  (a = OrderStatus.PendingSubmission ∧
    (b = OrderStatus.Submitted ∨ b = OrderStatus.Rejected ∨ b = OrderStatus.Failed)) ∨
  (a = OrderStatus.Submitted ∧
    (b = OrderStatus.PartiallyFilled ∨ b = OrderStatus.Filled ∨ b = OrderStatus.Cancelled ∨
     b = OrderStatus.Rejected ∨ b = OrderStatus.Failed)) ∨
  (a = OrderStatus.PartiallyFilled ∧
    (b = OrderStatus.Filled ∨ b = OrderStatus.Cancelled ∨ b = OrderStatus.Failed)) ∨
  a = b

instance (a b : OrderStatus) : Decidable (transition_allowed a b) := by
  unfold transition_allowed; infer_instance

/-! ### Claim theorems -/

/-- Claim C4: `can_transition_to a b` is true exactly for the pairs of the
§4.1 table — Created→PendingSubmission; PendingSubmission→Submitted,
Rejected or Failed; Submitted→PartiallyFilled, Filled, Cancelled, Rejected
or Failed; PartiallyFilled→Filled, Cancelled or Failed; or a = b — and
false for every other pair. -/
theorem can_transition_to_iff_table :
    ∀ a b : OrderStatus, a.can_transition_to b = true ↔ transition_allowed a b := by
  decide

/-- Claim C1, counterexample: the pipeline worker applies an Update event
carrying `filled_qty = 5` to an order of quantity 1 with no fill so far, and
the stored `filled_quantity` becomes 5, strictly above `quantity` — no
monotonicity or upper-bound check is performed. -/
theorem filled_quantity_exceeds_quantity :
    baseOrder.quantity = 1 ∧ baseOrder.filled_quantity = 0 ∧
    (get_order (process_order_event (.Update 1 none (some 5) none) baseState 7) 1).map
        Order.filled_quantity = some 5 ∧
    ¬ (5 : ℚ) ≤ 1 := by
  refine ⟨rfl, rfl, rfl, by norm_num⟩

/-- Claim C1 as amended: the pipeline worker overwrites `filled_quantity`
with exactly the Update event's `filled_qty` when one is present (leaving it
unchanged when absent), with no monotonicity or quantity-bound check;
Cancel, Reject and Error events as well as `cancel_order` never change
`filled_quantity`; and a successful `place_order` stores an order whose
`filled_quantity` is exactly the supplied order's `filled_quantity`,
unaltered (so a placement that reuses an existing id replaces the stored
entry wholesale with the caller's record). -/
theorem filled_quantity_overwritten (st : ManagerState) (now oid : Nat) (o : Order)
    (h : lookupMap st.orders oid = some o) :
    (∀ s fq ap, (get_order (process_order_event (.Update oid s (some fq) ap) st now) oid).map
        Order.filled_quantity = some fq) ∧
    (∀ s ap, (get_order (process_order_event (.Update oid s none ap) st now) oid).map
        Order.filled_quantity = some o.filled_quantity) ∧
    (∀ reason, (get_order (process_order_event (.Cancel oid reason) st now) oid).map
        Order.filled_quantity = some o.filled_quantity) ∧
    (∀ reason, (get_order (process_order_event (.Reject oid reason) st now) oid).map
        Order.filled_quantity = some o.filled_quantity) ∧
    (∀ msg, (get_order (process_order_event (.Error (some oid) msg) st now) oid).map
        Order.filled_quantity = some o.filled_quantity) ∧
    (∀ reason rc, (get_order (cancel_order st oid reason rc now).state oid).map
        Order.filled_quantity = some o.filled_quantity) ∧
    (∀ o2 fresh_id2 now2 i, (place_order st o2 fresh_id2 now2).result = .ok i →
      (get_order (place_order st o2 fresh_id2 now2).state i).map
        Order.filled_quantity = some o2.filled_quantity) := by
  refine ⟨?_, ?_, ?_, ?_, ?_, ?_, ?_⟩
  · intro s fq ap
    cases s <;> cases ap <;>
      simp [process_order_event, get_order, h, lookupMap_insertMap_self]
  · intro s ap
    cases s <;> cases ap <;>
      simp [process_order_event, get_order, h, lookupMap_insertMap_self]
  · intro reason
    simp [process_order_event, get_order, h, lookupMap_insertMap_self]
  · intro reason
    simp [process_order_event, get_order, h, lookupMap_insertMap_self]
  · intro msg
    simp [process_order_event, get_order, h, lookupMap_insertMap_self]
  · intro reason rc
    unfold cancel_order
    cases hact : lookupMap st.active_orders oid with
    | none => simp [get_order, h]
    | some oa =>
        by_cases hs : oa.status = OrderStatus.Created ∨ oa.status = OrderStatus.Submitted
            ∨ oa.status = OrderStatus.PartiallyFilled
        · by_cases hc : oa.status = OrderStatus.Created
          · simp [hs, hc, get_order, lookup_update_status, h]
          · have hs2 : oa.status = OrderStatus.Submitted
                ∨ oa.status = OrderStatus.PartiallyFilled := by tauto
            cases rc <;> simp [hs, hc, hs2, get_order, lookup_update_status, h]
        · simp [hs, get_order, h]
  · intro o2 fresh_id2 now2 i hres
    by_cases hid : o2.id = 0 <;>
    · simp only [place_order, hid, if_true, if_false] at hres ⊢
      split at hres
      · exact Except.noConfusion hres
      · next u heq =>
          injection hres with hi
          subst hi
          simp [get_order, heq, lookupMap_insertMap_self]

/-- Claim C2, counterexample: an Update event whose resulting status is
Failed (a terminal status) leaves the order in the Active-Order Set — the
worker only removes on Filled, Cancelled or Rejected. -/
theorem update_to_failed_stays_active :
    (get_order (process_order_event (.Update 1 (some OrderStatus.Failed) none none)
        baseState 7) 1).map Order.status = some OrderStatus.Failed ∧
    (lookupMap (process_order_event (.Update 1 (some OrderStatus.Failed) none none)
        baseState 7).active_orders 1).isSome = true := by
  exact ⟨rfl, rfl⟩

/-- Claim C2 as amended: after the pipeline worker applies an Update event
carrying a new status `s` to a stored order, the order is absent from the
Active-Order Set exactly when `s` is Filled, Cancelled or Rejected; an
Update resulting in Failed (or any non-terminal status) leaves the active
set unchanged — removal on Failed happens only through the Error-event and
submission-failure paths. -/
theorem update_active_removal_iff (st : ManagerState) (oid now : Nat) (o : Order)
    (s : OrderStatus) (fq ap : Option ℚ)
    (h : lookupMap st.orders oid = some o) :
    lookupMap (process_order_event (.Update oid (some s) fq ap) st now).active_orders oid
      = if s = OrderStatus.Filled ∨ s = OrderStatus.Cancelled ∨ s = OrderStatus.Rejected
        then none else lookupMap st.active_orders oid := by
  by_cases hterm : s = OrderStatus.Filled ∨ s = OrderStatus.Cancelled
      ∨ s = OrderStatus.Rejected <;>
    cases fq <;> cases ap <;>
      simp [process_order_event, h, hterm, lookupMap_removeMap_self]

/-- Claim C3, counterexample: `update_order_status_internal` applies the
transition Filled→Submitted even though `can_transition_to` disallows it —
the transition table is never consulted, so the disallowed change is
applied rather than rejected. -/
theorem disallowed_transition_applied :
    OrderStatus.can_transition_to OrderStatus.Filled OrderStatus.Submitted = false ∧
    (get_order (update_order_status_internal filledState 1 OrderStatus.Submitted 9) 1).map
        Order.status = some OrderStatus.Submitted := by
  exact ⟨rfl, rfl⟩

/-- Claim C3 as amended: status changes are applied unconditionally —
`update_order_status_internal` and the pipeline worker's Update branch set
the stored order's status to the requested value even when the pair (current
status, new status) is not a permitted transition of the §4.1 table; no
rejection happens anywhere in the mutation paths. -/
theorem status_change_unconditional (st : ManagerState) (oid : Nat) (s : OrderStatus)
    (now : Nat) (o : Order)
    (h : lookupMap st.orders oid = some o)
    (_hno : o.status.can_transition_to s = false) :
    get_order (update_order_status_internal st oid s now) oid
      = some ({ o with status := s, updated_at := now }) ∧
    (get_order (process_order_event (.Update oid (some s) none none) st now) oid).map
        Order.status = some s := by
  constructor
  · simp [get_order, lookup_update_status, h]
  · simp [process_order_event, get_order, h, lookupMap_insertMap_self]

theorem filled_quantity_overwritten_witness :
    lookupMap baseState.orders 1 = some baseOrder ∧
    (get_order (process_order_event (.Update 1 none (some (1/2)) none) baseState 5) 1).map
        Order.filled_quantity = some (1/2) :=
  ⟨rfl, (filled_quantity_overwritten baseState 5 1 baseOrder rfl).1 none (1/2) none⟩

theorem update_active_removal_iff_witness :
    lookupMap baseState.orders 1 = some baseOrder ∧
    lookupMap (process_order_event (.Update 1 (some OrderStatus.Filled) none none)
        baseState 5).active_orders 1 = none :=
  ⟨rfl, by
    simpa using update_active_removal_iff baseState 1 5 baseOrder OrderStatus.Filled
      none none rfl⟩

theorem status_change_unconditional_witness :
    lookupMap filledState.orders 1 = some ({ baseOrder with status := OrderStatus.Filled }) ∧
    OrderStatus.can_transition_to OrderStatus.Filled OrderStatus.Submitted = false ∧
    get_order (update_order_status_internal filledState 1 OrderStatus.Submitted 9) 1
      = some ({ baseOrder with status := OrderStatus.Submitted, updated_at := 9 }) :=
  ⟨rfl, rfl,
    (status_change_unconditional filledState 1 OrderStatus.Submitted 9
      ({ baseOrder with status := OrderStatus.Filled }) rfl rfl).1⟩

theorem validate_order_eq_ok_iff (o : Order) :
    validate_order o = .ok () ↔
      (¬ o.symbol = "" ∧ ¬ o.quantity ≤ 0 ∧
       ¬ (o.order_type = OrderType.Limit ∧ o.price = none) ∧
       ¬ (o.order_type = OrderType.Market ∧ o.price ≠ none) ∧
       ¬ ((o.order_type = OrderType.StopLoss ∨ o.order_type = OrderType.StopLimit)
          ∧ o.stop_price = none)) := by
  unfold validate_order
  split_ifs <;> simp_all

/-- Claim C5: an invalid order — empty symbol, non-positive quantity, a
Limit order with no price, a Market order carrying a price, or a Stop order
with no stop price — makes `place_order` return an error with no state
mutation: nothing is inserted into the store or the active set and no event
is emitted. -/
theorem place_order_invalid_rejected (st : ManagerState) (o : Order) (fresh_id now : Nat)
    (h : o.symbol = "" ∨ o.quantity ≤ 0 ∨
      (o.order_type = OrderType.Limit ∧ o.price = none) ∨
      (o.order_type = OrderType.Market ∧ o.price ≠ none) ∨
      ((o.order_type = OrderType.StopLoss ∨ o.order_type = OrderType.StopLimit)
        ∧ o.stop_price = none)) :
    isErr (place_order st o fresh_id now).result = true ∧
    (place_order st o fresh_id now).state = st ∧
    (place_order st o fresh_id now).events = [] := by
  by_cases hid : o.id = 0 <;>
  · simp only [place_order, hid, if_true, if_false]
    split
    · next e heq => simp [isErr]
    · next u heq =>
        exfalso
        rw [validate_order_eq_ok_iff] at heq
        simp only at heq
        tauto

theorem place_order_invalid_rejected_witness :
    (baseOrder.order_type = OrderType.Limit ∧
      ({ baseOrder with price := none } : Order).price = none) ∧
    isErr (place_order baseState ({ baseOrder with price := none }) 4 5).result = true ∧
    (place_order baseState ({ baseOrder with price := none }) 4 5).state = baseState ∧
    (place_order baseState ({ baseOrder with price := none }) 4 5).events = [] :=
  ⟨⟨rfl, rfl⟩,
    place_order_invalid_rejected baseState ({ baseOrder with price := none }) 4 5
      (Or.inr (Or.inr (Or.inl ⟨rfl, rfl⟩)))⟩

/-- Claim C6: `cancel_order` returns an error — leaving the store, the
active set, the emitted events and the venue untouched — exactly when the
id is not in the Active-Order Set or the active order's status is not one
of Created, Submitted, PartiallyFilled; in particular a second
`cancel_order` on an order already cancelled successfully always fails,
since the order has left the active set. -/
theorem cancel_order_error_iff (st : ManagerState) (oid : Nat) (reason : String)
    (rc : Except String Unit) (now : Nat) :
    (isErr (cancel_order st oid reason rc now).result = true ↔
      ¬ ∃ o, lookupMap st.active_orders oid = some o ∧
        (o.status = OrderStatus.Created ∨ o.status = OrderStatus.Submitted
          ∨ o.status = OrderStatus.PartiallyFilled)) ∧
    (isErr (cancel_order st oid reason rc now).result = true →
      (cancel_order st oid reason rc now).state = st ∧
      (cancel_order st oid reason rc now).events = [] ∧
      (cancel_order st oid reason rc now).venue_called = false) ∧
    (∀ reason2 rc2 now2, (cancel_order st oid reason rc now).result = .ok () →
      isErr (cancel_order (cancel_order st oid reason rc now).state
        oid reason2 rc2 now2).result = true) := by
  cases hact : lookupMap st.active_orders oid with
  | none =>
      refine ⟨?_, ?_, ?_⟩
      · simp [cancel_order, hact, isErr]
      · intro _
        simp [cancel_order, hact]
      · intro reason2 rc2 now2 hok
        simp [cancel_order, hact] at hok
  | some oa =>
      by_cases hs : oa.status = OrderStatus.Created ∨ oa.status = OrderStatus.Submitted
          ∨ oa.status = OrderStatus.PartiallyFilled
      · have hresult : (cancel_order st oid reason rc now).result = .ok () := by
          by_cases hc : oa.status = OrderStatus.Created
          · simp [cancel_order, hact, hs, hc]
          · have hsp : oa.status = OrderStatus.Submitted
                ∨ oa.status = OrderStatus.PartiallyFilled := by tauto
            cases rc <;> simp [cancel_order, hact, hs, hc, hsp]
        have hactive2 : (cancel_order st oid reason rc now).state.active_orders
            = removeMap st.active_orders oid := by
          by_cases hc : oa.status = OrderStatus.Created
          · simp [cancel_order, hact, hs, hc, update_status_active]
          · have hsp : oa.status = OrderStatus.Submitted
                ∨ oa.status = OrderStatus.PartiallyFilled := by tauto
            cases rc <;> simp [cancel_order, hact, hs, hc, hsp, update_status_active]
        refine ⟨?_, ?_, ?_⟩
        · rw [hresult]
          constructor
          · intro hfalse
            simp [isErr] at hfalse
          · intro hno
            exact absurd ⟨oa, rfl, hs⟩ hno
        · intro herr
          rw [hresult] at herr
          simp [isErr] at herr
        · intro reason2 rc2 now2 _
          have hnone : lookupMap (cancel_order st oid reason rc now).state.active_orders oid
              = none := by
            rw [hactive2]
            exact lookupMap_removeMap_self _ _
          obtain ⟨st2, hst2⟩ : ∃ s2, (cancel_order st oid reason rc now).state = s2 := ⟨_, rfl⟩
          rw [hst2] at hnone
          rw [hst2]
          simp [cancel_order, hnone, isErr]
      · refine ⟨?_, ?_, ?_⟩
        · simp only [cancel_order, hact, hs, if_false, isErr, true_iff]
          rintro ⟨o', ho', hs'⟩
          injection ho' with he
          subst he
          exact hs hs'
        · intro _
          simp [cancel_order, hact, hs]
        · intro reason2 rc2 now2 hok
          simp [cancel_order, hact, hs] at hok

theorem cancel_order_error_iff_witness :
    (cancel_order baseState 1 "first cancel" (.ok ()) 5).result = .ok () ∧
    isErr (cancel_order (cancel_order baseState 1 "first cancel" (.ok ()) 5).state
      1 "second cancel" (.ok ()) 6).result = true :=
  ⟨rfl, (cancel_order_error_iff baseState 1 "first cancel" (.ok ()) 5).2.2
    "second cancel" (.ok ()) 6 rfl⟩

/-- Claim C7: for an active order in status Created, Submitted or
PartiallyFilled, `cancel_order` succeeds whatever the router's venue cancel
returns (a Created order triggers no venue call), emits exactly one Cancel
event, and once the pipeline worker processes that event the order is out
of the active set and stored with status Cancelled and notes equal to the
given reason. -/
theorem cancel_order_success_effects (st : ManagerState) (oid : Nat) (o o2 : Order)
    (reason : String) (rc : Except String Unit) (now now2 : Nat)
    (hact : lookupMap st.active_orders oid = some o)
    (hs : o.status = OrderStatus.Created ∨ o.status = OrderStatus.Submitted
      ∨ o.status = OrderStatus.PartiallyFilled)
    (hord : lookupMap st.orders oid = some o2) :
    (cancel_order st oid reason rc now).result = .ok () ∧
    (o.status = OrderStatus.Created → (cancel_order st oid reason rc now).venue_called = false) ∧
    (cancel_order st oid reason rc now).events = [.Cancel oid reason] ∧
    lookupMap (process_order_event (.Cancel oid reason)
      (cancel_order st oid reason rc now).state now2).active_orders oid = none ∧
    (get_order (process_order_event (.Cancel oid reason)
      (cancel_order st oid reason rc now).state now2) oid).map Order.status
      = some OrderStatus.Cancelled ∧
    (get_order (process_order_event (.Cancel oid reason)
      (cancel_order st oid reason rc now).state now2) oid).map Order.notes
      = some (some reason) := by
  have horders : lookupMap (cancel_order st oid reason rc now).state.orders oid = some o2
      ∨ lookupMap (cancel_order st oid reason rc now).state.orders oid
        = some ({ o2 with status := OrderStatus.Cancelled, updated_at := now }) := by
    by_cases hc : o.status = OrderStatus.Created
    · right
      simp [cancel_order, hact, hs, hc, lookup_update_status, hord]
    · have hsp : o.status = OrderStatus.Submitted
          ∨ o.status = OrderStatus.PartiallyFilled := by tauto
      cases rc with
      | ok u =>
          left
          simp [cancel_order, hact, hs, hc, hsp, hord]
      | error e =>
          right
          simp [cancel_order, hact, hs, hc, hsp, lookup_update_status, hord]
  have hresult : (cancel_order st oid reason rc now).result = .ok () := by
    by_cases hc : o.status = OrderStatus.Created
    · simp [cancel_order, hact, hs, hc]
    · have hsp : o.status = OrderStatus.Submitted
          ∨ o.status = OrderStatus.PartiallyFilled := by tauto
      cases rc <;> simp [cancel_order, hact, hs, hc, hsp]
  have hevents : (cancel_order st oid reason rc now).events = [.Cancel oid reason] := by
    by_cases hc : o.status = OrderStatus.Created
    · simp [cancel_order, hact, hs, hc]
    · have hsp : o.status = OrderStatus.Submitted
          ∨ o.status = OrderStatus.PartiallyFilled := by tauto
      cases rc <;> simp [cancel_order, hact, hs, hc, hsp]
  have hvenue : o.status = OrderStatus.Created →
      (cancel_order st oid reason rc now).venue_called = false := by
    intro hc
    simp [cancel_order, hact, hs, hc]
  refine ⟨hresult, hvenue, hevents, ?_, ?_, ?_⟩ <;>
    rcases horders with h3 | h3 <;>
      simp [process_order_event, h3, get_order, lookupMap_insertMap_self,
        lookupMap_removeMap_self]

theorem cancel_order_success_effects_witness :
    lookupMap baseState.active_orders 1 = some baseOrder ∧
    baseOrder.status = OrderStatus.Submitted ∧
    (cancel_order baseState 1 "user cancel" (.error "venue down") 5).result = .ok () ∧
    (get_order (process_order_event (.Cancel 1 "user cancel")
      (cancel_order baseState 1 "user cancel" (.error "venue down") 5).state 6) 1).map
        Order.notes = some (some "user cancel") :=
  ⟨rfl, rfl,
    (cancel_order_success_effects baseState 1 baseOrder baseOrder "user cancel"
      (.error "venue down") 5 6 rfl (Or.inr (Or.inl rfl)) rfl).1,
    (cancel_order_success_effects baseState 1 baseOrder baseOrder "user cancel"
      (.error "venue down") 5 6 rfl (Or.inr (Or.inl rfl)) rfl).2.2.2.2.2⟩

/-- A sample venue adapter: accepts every submit, recognizes only order 1
for cancellation. -/
def sampleExchange : CryptoExchange :=
  { name := "binance"
    submit := fun _ => .ok ()
    cancel := fun oid => if oid = 1 then .ok () else .error "unknown order" }

/-- A router with one registered venue, primary for BTC/USD. -/
def sampleRouter : OrderRouter :=
  { exchanges := [("binance", sampleExchange)]
    primary_exchange_map := [("BTC/USD", "binance")] }

/-- Claim C8: `OrderRouter::submit_order` targets `order.exchange` when it
is non-empty and otherwise the primary-venue mapping for `order.symbol`;
when neither resolves, or the resolved name is unregistered, it errors
without invoking any adapter; otherwise it delegates to exactly that
adapter's submit and returns its result. -/
theorem submit_order_routing (r : OrderRouter) (o : Order) :
    ((o.exchange = "" ∧ lookupMap r.primary_exchange_map o.symbol = none) →
      isErr (r.submit_order o).1 = true ∧ (r.submit_order o).2 = none) ∧
    (∀ n, (if o.exchange = "" then lookupMap r.primary_exchange_map o.symbol
            else some o.exchange) = some n →
      (lookupMap r.exchanges n = none →
        isErr (r.submit_order o).1 = true ∧ (r.submit_order o).2 = none) ∧
      (∀ ex, lookupMap r.exchanges n = some ex →
        (r.submit_order o).1 = ex.submit o ∧ (r.submit_order o).2 = some n)) := by
  constructor
  · rintro ⟨he, hp⟩
    constructor <;> simp [OrderRouter.submit_order, he, hp, isErr]
  · intro n hn
    constructor
    · intro hx
      by_cases he : o.exchange = ""
      · rw [if_pos he] at hn
        constructor <;> simp [OrderRouter.submit_order, he, hn, hx, isErr]
      · rw [if_neg he] at hn
        injection hn with hn2
        rw [hn2] at he
        constructor <;> simp [OrderRouter.submit_order, hn2, he, hx, isErr]
    · intro ex hex
      by_cases he : o.exchange = ""
      · rw [if_pos he] at hn
        constructor <;> simp [OrderRouter.submit_order, he, hn, hex]
      · rw [if_neg he] at hn
        injection hn with hn2
        rw [hn2] at he
        constructor <;> simp [OrderRouter.submit_order, hn2, he, hex]

theorem submit_order_routing_witness :
    (if baseOrder.exchange = "" then lookupMap sampleRouter.primary_exchange_map
        baseOrder.symbol else some baseOrder.exchange) = some "binance" ∧
    lookupMap sampleRouter.exchanges "binance" = some sampleExchange ∧
    (sampleRouter.submit_order baseOrder).1 = sampleExchange.submit baseOrder ∧
    (sampleRouter.submit_order baseOrder).2 = some "binance" :=
  ⟨rfl, rfl,
    (((submit_order_routing sampleRouter baseOrder).2 "binance" rfl).2
      sampleExchange rfl).1,
    (((submit_order_routing sampleRouter baseOrder).2 "binance" rfl).2
      sampleExchange rfl).2⟩

theorem cancel_probe_all_err (oid : Nat) (l : List (String × CryptoExchange))
    (h : ∀ p ∈ l, isErr (p.2.cancel oid) = true) :
    isErr (cancel_probe oid l).1 = true := by
  induction l with
  | nil => simp [cancel_probe, isErr]
  | cons p rest ih =>
      obtain ⟨name, ex⟩ := p
      have hp := h (name, ex) (List.mem_cons_self _ _)
      cases hc : ex.cancel oid with
      | ok u =>
          rw [hc] at hp
          simp [isErr] at hp
      | error e =>
          simp only [cancel_probe, hc]
          exact ih (fun q hq => h q (List.mem_cons_of_mem _ hq))

theorem cancel_probe_first_ok (oid : Nat) (pre : List (String × CryptoExchange))
    (n : String) (ex : CryptoExchange) (post : List (String × CryptoExchange))
    (hpre : ∀ p ∈ pre, isErr (p.2.cancel oid) = true)
    (hex : isErr (ex.cancel oid) = false) :
    cancel_probe oid (pre ++ (n, ex) :: post) = (.ok (), pre.map Prod.fst ++ [n]) := by
  induction pre with
  | nil =>
      cases hc : ex.cancel oid with
      | ok u => simp [cancel_probe, hc]
      | error e =>
          rw [hc] at hex
          simp [isErr] at hex
  | cons p rest ih =>
      obtain ⟨name2, ex2⟩ := p
      have hp := hpre (name2, ex2) (List.mem_cons_self _ _)
      cases hc : ex2.cancel oid with
      | ok u =>
          rw [hc] at hp
          simp [isErr] at hp
      | error e =>
          have ih2 := ih (fun q hq => hpre q (List.mem_cons_of_mem _ hq))
          simp [cancel_probe, hc, ih2]

/-- An adapter that accepts every cancel, registered first. -/
def exchangeA : CryptoExchange :=
  { name := "alpha", submit := fun _ => .ok (), cancel := fun _ => .ok () }

/-- An adapter that accepts every cancel, registered second. -/
def exchangeB : CryptoExchange :=
  { name := "beta", submit := fun _ => .ok (), cancel := fun _ => .ok () }

/-- A router whose registry holds `exchangeA` then `exchangeB` (the order
the two `register_exchange` calls inserted them). -/
def twoRouter : OrderRouter :=
  { exchanges := [("alpha", exchangeA), ("beta", exchangeB)]
    primary_exchange_map := [] }

/-- A legal `HashMap` iteration sequence over `twoRouter`'s registry that
visits beta before alpha. -/
def reversedIter : List (String × CryptoExchange) :=
  [("beta", exchangeB), ("alpha", exchangeA)]

/-- Claim C9, counterexample: the registry is a `HashMap`, whose iteration
order is arbitrary; under the legal iteration sequence `reversedIter` (a
permutation of the registry) `cancel_order` probes and succeeds on "beta"
even though "alpha" was registered first and would also have accepted — so
the probe is not in registration order and success is not returned on the
first accepting adapter in registration order. -/
theorem registration_order_not_guaranteed :
    reversedIter.Perm twoRouter.exchanges ∧
    twoRouter.exchanges.map Prod.fst = ["alpha", "beta"] ∧
    isErr (exchangeA.cancel 1) = false ∧
    (twoRouter.cancel_order 1 reversedIter).1 = .ok () ∧
    (twoRouter.cancel_order 1 reversedIter).2 = ["beta"] ∧
    ["beta"] ≠ ["alpha"] :=
  ⟨List.Perm.swap ("alpha", exchangeA) ("beta", exchangeB) [],
    rfl, rfl, rfl, rfl, by decide⟩

theorem cancel_probe_exists_ok (oid : Nat) (l : List (String × CryptoExchange))
    (h : ∃ p ∈ l, isErr (p.2.cancel oid) = false) :
    (cancel_probe oid l).1 = .ok () := by
  induction l with
  | nil => simp at h
  | cons q rest ih =>
      obtain ⟨name, ex⟩ := q
      cases hc : ex.cancel oid with
      | ok u => simp [cancel_probe, hc]
      | error e =>
          simp only [cancel_probe, hc]
          apply ih
          rcases h with ⟨p, hp, hacc⟩
          rcases List.mem_cons.mp hp with hhead | htail
          · subst hhead
            rw [hc] at hacc
            simp [isErr] at hacc
          · exact ⟨p, htail, hacc⟩

/-- Claim C9 as amended: `cancel_order` iterates the registry `HashMap` in
an arbitrary, unspecified order — not necessarily registration order — and
returns success on the first adapter of that iteration sequence that
accepts; for every iteration order its result errs exactly when no adapter
is registered or every registered adapter rejects the order, and succeeds
whenever some registered adapter accepts. -/
theorem router_cancel_order_independent (r : OrderRouter) (oid : Nat)
    (iter : List (String × CryptoExchange)) (hperm : iter.Perm r.exchanges) :
    (r.exchanges = [] →
      (r.cancel_order oid iter).1 = .error "No exchanges registered") ∧
    ((∀ p ∈ r.exchanges, isErr (p.2.cancel oid) = true) →
      isErr (r.cancel_order oid iter).1 = true) ∧
    ((∃ p ∈ r.exchanges, isErr (p.2.cancel oid) = false) →
      (r.cancel_order oid iter).1 = .ok ()) ∧
    (∀ pre n ex post, iter = pre ++ (n, ex) :: post →
      (∀ p ∈ pre, isErr (p.2.cancel oid) = true) → isErr (ex.cancel oid) = false →
      (r.cancel_order oid iter).1 = .ok () ∧
      (r.cancel_order oid iter).2 = pre.map Prod.fst ++ [n]) := by
  refine ⟨?_, ?_, ?_, ?_⟩
  · intro h
    have hnil : iter = [] := List.Perm.eq_nil (h ▸ hperm)
    simp [OrderRouter.cancel_order, hnil]
  · intro h
    by_cases hemp : iter.isEmpty
    · simp [OrderRouter.cancel_order, hemp, isErr]
    · simp only [OrderRouter.cancel_order, hemp, Bool.false_eq_true, if_false]
      exact cancel_probe_all_err oid iter (fun p hp => h p (hperm.mem_iff.mp hp))
  · rintro ⟨p, hp, hacc⟩
    have hpin : p ∈ iter := hperm.mem_iff.mpr hp
    have hne : iter.isEmpty = false := by
      cases iter
      · simp at hpin
      · simp [List.isEmpty]
    simp only [OrderRouter.cancel_order, hne, Bool.false_eq_true, if_false]
    exact cancel_probe_exists_ok oid iter ⟨p, hpin, hacc⟩
  · intro pre n ex post heq hpre hex
    subst heq
    have hemp : (pre ++ (n, ex) :: post).isEmpty = false := by
      cases pre <;> simp [List.isEmpty]
    have hres : OrderRouter.cancel_order r oid (pre ++ (n, ex) :: post)
        = (Except.ok (), pre.map Prod.fst ++ [n]) := by
      rw [OrderRouter.cancel_order, cancel_probe_first_ok oid pre n ex post hpre hex]
      simp [hemp]
    simp [hres]

theorem router_cancel_order_independent_witness :
    (twoRouter.cancel_order 1 reversedIter).1 = .ok () :=
  (router_cancel_order_independent twoRouter 1 reversedIter
      (List.Perm.swap ("alpha", exchangeA) ("beta", exchangeB) [])).2.2.1
    ⟨("alpha", exchangeA), by exact List.mem_cons_self _ _, rfl⟩

/-- The previously stored order that `secondOrder` will displace. -/
def prevOrder : Order := { baseOrder with id := 42 }

/-- A second valid order deliberately reusing id 42. -/
def secondOrder : Order := { baseOrder with id := 42, notes := some "replacement" }

/-- A state already holding an order under id 42 in both maps. -/
def overwriteState : ManagerState :=
  { orders := [(42, prevOrder)], active_orders := [(42, prevOrder)] }

/-- Claim C10: `place_order` draws a fresh identifier only when the supplied
id is the nil UUID; a non-nil id is kept as-is, and a second valid placement
carrying the same non-nil id overwrites the existing entry in both the
Order Store and the Active-Order Set. -/
theorem place_order_id_semantics (st : ManagerState) (o prev : Order) (fresh_id now : Nat) :
    (o.id = 0 → isErr (place_order st o fresh_id now).result = false →
      (place_order st o fresh_id now).result = .ok fresh_id) ∧
    (¬ o.id = 0 → isErr (place_order st o fresh_id now).result = false →
      (place_order st o fresh_id now).result = .ok o.id ∧
      (lookupMap st.orders o.id = some prev →
        get_order (place_order st o fresh_id now).state o.id
          = some ({ o with created_at := now, updated_at := now, status := OrderStatus.Created }) ∧
        lookupMap (place_order st o fresh_id now).state.active_orders o.id
          = some ({ o with created_at := now, updated_at := now, status := OrderStatus.Created }))) := by
  constructor
  · intro hid herr
    simp only [place_order, hid, if_true] at herr ⊢
    split at herr
    · simp [isErr] at herr
    · next u heq => simp
  · intro hid herr
    simp only [place_order, hid, if_false] at herr ⊢
    split at herr
    · simp [isErr] at herr
    · next u heq =>
        refine ⟨by simp, fun _ => ?_⟩
        constructor <;>
          simp [get_order, lookupMap_insertMap_self]

theorem place_order_id_semantics_witness :
    secondOrder.id = 42 ∧
    lookupMap overwriteState.orders 42 = some prevOrder ∧
    isErr (place_order overwriteState secondOrder 99 7).result = false ∧
    (place_order overwriteState secondOrder 99 7).result = .ok 42 ∧
    get_order (place_order overwriteState secondOrder 99 7).state 42
      = some ({ secondOrder with created_at := 7, updated_at := 7, status := OrderStatus.Created }) ∧
    lookupMap (place_order overwriteState secondOrder 99 7).state.active_orders 42
      = some ({ secondOrder with created_at := 7, updated_at := 7, status := OrderStatus.Created }) :=
  ⟨rfl, rfl, rfl,
    ((place_order_id_semantics overwriteState secondOrder prevOrder 99 7).2
      (by decide) rfl).1,
    (((place_order_id_semantics overwriteState secondOrder prevOrder 99 7).2
      (by decide) rfl).2 rfl).1,
    (((place_order_id_semantics overwriteState secondOrder prevOrder 99 7).2
      (by decide) rfl).2 rfl).2⟩

end VibeTrading
